import Mathlib

/-!
Shallow embedding of the git-module repository's search, commit, submodule
and statistics components (src/commit.go and the unnamed search source file,
package git).  Each Go function that consumes the raw stdout of an external
git invocation is modelled as a pure Lean function of that raw stdout (and,
where the Go code inspects it, of the invocation's error value).  A Go
runtime panic (out-of-range slice or index) is modelled by an `Option`
returning `none`; a Go `(value, error)` return is modelled by a pair with an
`Option GitError`, or by `Except GitError` when the value is `nil` exactly
when the error is set.

The Go standard-library string primitives used by the source
(`strings.Split`, `strings.SplitN`, `strings.Fields`, `strings.TrimSpace`,
`strings.Trim`, `strings.HasPrefix`, `bufio` line scanning,
`strconv.ParseInt`, and the regular expression `[0-9]+`) are embedded as
executable structural recursions over `List Char` below, so that every
modelled operation evaluates on concrete inputs inside the kernel.
-/

namespace GitModule

/-- Errors surfaced by the modelled operations.  `notExist` models
`ErrNotExist{id, relPath}`, `eof` models the `io.EOF` returned by
`bufio.Reader.ReadString` when no delimiter is found, `process` models an
opaque error from running the external git command, and `parseIntFail`
models the error of a failed `strconv.ParseInt` call. -/
inductive GitError where
  | notExist (id : String) (relPath : String)
  | eof
  | process (msg : String)
  | parseIntFail (input : String)
deriving DecidableEq, Repr

/-- Does the character list start with the given pattern?
(`strings.HasPrefix` on character lists.) -/
def listHasPrefixOf : List Char → List Char → Bool
  | _, [] => true
  | [], _ :: _ => false
  | c :: cs, p :: ps => c = p && listHasPrefixOf cs ps

/-- `strings.Split(s, sep)` for a one-character separator: split around
every occurrence of `sep`; always at least one (possibly empty) part. -/
def splitOnChar (sep : Char) : List Char → List (List Char)
  | [] => [[]]
  | c :: cs =>
    match splitOnChar sep cs with
    | [] => [[]]
    | p :: ps => if c = sep then [] :: p :: ps else (c :: p) :: ps

/-- `strings.Split(s, sep)` for a two-character separator `[a, b]`:
occurrences are found left to right and are non-overlapping. -/
def splitOnPair (a b : Char) : List Char → List (List Char)
  | [] => [[]]
  | [c] => [[c]]
  | c :: d :: rest =>
    if c = a ∧ d = b then [] :: splitOnPair a b rest
    else
      match splitOnPair a b (d :: rest) with
      | [] => [[c]]
      | p :: ps => (c :: p) :: ps

/-- Join character lists with a one-character separator
(`strings.Join`, used to model the remainder kept by `strings.SplitN`). -/
def joinWithChar (sep : Char) : List (List Char) → List Char
  | [] => []
  | [x] => x
  | x :: y :: rest => x ++ sep :: joinWithChar sep (y :: rest)

/-- `strings.Split(s, sep)` for a one-character separator, on strings. -/
def goSplitChar (sep : Char) (s : String) : List String :=
  (splitOnChar sep s.data).map String.mk

/-- `strings.Split(stdout, "\n\n")`, the blank-line block splitter of the
fetch phase. -/
def goSplitBlankLine (s : String) : List String :=
  (splitOnPair '\n' '\n' s.data).map String.mk

/-- `strings.SplitN(s, ":", 2)`: split at the first `:` only. -/
def goSplitN2Colon (s : String) : List String :=
  match splitOnChar ':' s.data with
  | [] => []
  | [x] => [String.mk x]
  | x :: rest => [String.mk x, String.mk (joinWithChar ':' rest)]

/-- `strings.TrimSpace`: trim whitespace from both ends (modelled with
Lean's whitespace predicate, which agrees with Go on space/tab/CR/LF — the
only whitespace appearing at this model's call sites). -/
def goTrimSpace (s : String) : String :=
  String.mk (((s.data.dropWhile Char.isWhitespace).reverse.dropWhile
    Char.isWhitespace).reverse)

/-- `strings.Trim(s, " ")`: trim leading and trailing space characters. -/
def goTrimCutsetSpace (s : String) : String :=
  String.mk (((s.data.dropWhile (fun c => c = ' ')).reverse.dropWhile
    (fun c => c = ' ')).reverse)

/-- Go slice expression `xs[lo:hi]`: defined (as `some`) exactly when
`0 ≤ lo ≤ hi ≤ len xs`; out-of-range slicing is a runtime panic (`none`). -/
def goSlice {α : Type} (xs : List α) (lo hi : Int) : Option (List α) :=
  if 0 ≤ lo ∧ lo ≤ hi ∧ hi ≤ (xs.length : Int) then
    some ((xs.drop lo.toNat).take (hi - lo).toNat)
  else
    none

/-- `strconv.ParseInt(s, 10, 64)`: returns the parsed value and a success
flag.  On a syntactically malformed input (empty string, or a non-digit
after the optional sign) the returned value is `0`; on an out-of-range
input the returned value is the maximum-magnitude int64 of the appropriate
sign.  In both failure cases the flag is `false` (Go returns a non-nil
error). -/
def goParseInt64 (s : String) : Int × Bool :=
  let (neg, digits) :=
    match s.data with
    | '-' :: rest => (true, rest)
    | '+' :: rest => (false, rest)
    | l => (false, l)
  if digits = [] ∨ ¬ digits.all Char.isDigit then (0, false)
  else
    let m : Nat := digits.foldl (fun n c => n * 10 + (c.toNat - 48)) 0
    let v : Int := if neg then -(m : Int) else (m : Int)
    if v < -(2 ^ 63) then (-(2 ^ 63), false)
    else if (2 ^ 63 - 1 : Int) < v then (2 ^ 63 - 1, false)
    else (v, true)

/-- `bufio.Scanner` with the default `ScanLines` split function, run over a
whole string: the sequence of lines, each stripped of its trailing
newline (and of a `\r` immediately before it, or at end of input); a final
line without a newline is still produced; empty input produces no lines. -/
def goScanLines (s : String) : List String :=
  if s.data = [] then []
  else
    let parts := splitOnChar '\n' s.data
    let parts := if parts.getLast? = some [] then parts.dropLast else parts
    parts.map (fun l =>
      String.mk (if l.getLast? = some '\r' then l.dropLast else l))

/-- Generic splitter into maximal runs of characters satisfying `p`,
carrying the (reversed) run read so far.  Used to model both
`strings.Fields` and `FindAllString` of the regular expression `[0-9]+`. -/
def charRunsAux (p : Char → Bool) : List Char → List Char → List String
  | [], cur => if cur = [] then [] else [String.mk cur.reverse]
  | c :: cs, cur =>
    if p c then charRunsAux p cs (c :: cur)
    else if cur = [] then charRunsAux p cs []
    else String.mk cur.reverse :: charRunsAux p cs []

/-- `strings.Fields`: the maximal runs of non-whitespace characters. -/
def goFields (s : String) : List String :=
  charRunsAux (fun c => ¬ c.isWhitespace) s.data []

/-- `regexp.MustCompile("[0-9]+").FindAllString(line, -1)`: the maximal
runs of decimal digits in the string, in order. -/
def digitRuns (l : List Char) : List String :=
  charRunsAux Char.isDigit l []

/-! ## Code search (unnamed source file) -/

/-- `Match` from the search source file. -/
structure Match where
  commitID : String
  path : String
  content : String
deriving DecidableEq, Repr

/-- `MatchesResults` from the search source file. -/
structure MatchesResults where
  numberMatches : Int
  results : List Match
deriving DecidableEq, Repr

/-- `RepoSearchOptions` from the search source file. -/
structure RepoSearchOptions where
  keyword : String
  ownerID : Int
  orderBy : String
  page : Int
  pageSize : Int
deriving DecidableEq, Repr

/-- `getNumberOfCodeMatches`, as a function of the raw stdout and the error
returned by `RunPipesInDir`.  Empty stdout returns `(0, nil)` before the
error is consulted; otherwise the count is the number of `\n`-split
fields minus one, returned together with the invocation error. -/
def getNumberOfCodeMatches (stdout : String) (runErr : Option GitError) :
    Int × Option GitError :=
  if stdout.length ≤ 0 then (0, none)
  else (((goSplitChar '\n' stdout).length : Int) - 1, runErr)

/-- The pagination step of `getRangeOfMatches`: split the raw stdout on
blank lines, compute `limit = min(page*pageSize, len(results))` and take
the Go slice `results[(page-1)*pageSize : limit]` (`none` = slice panic). -/
def selectedBlocks (stdout : String) (opts : RepoSearchOptions) :
    Option (List String) :=
  let results := goSplitBlankLine stdout
  let limit : Int :=
    if opts.page * opts.pageSize < (results.length : Int) then
      opts.page * opts.pageSize
    else (results.length : Int)
  goSlice results ((opts.page - 1) * opts.pageSize) limit

/-- `bufio.Reader.ReadString('\n')` applied to the start of a block: the
first line including its newline, or an `io.EOF` error when the block
contains no newline (the data read so far is then discarded by the
caller). -/
def readHeaderLine (s : String) : Except GitError String :=
  match splitOnChar '\n' s.data with
  | [] => .error .eof
  | [_] => .error .eof
  | first :: _ :: _ => .ok (String.mk (first ++ ['\n']))

/-- Parsing of one selected block in `getRangeOfMatches`: read the header
line (a read failure is returned as an error), split it on `:` and build
the `Match` from components 0 and 1.  A header with no `:` makes
`info[1]` an out-of-range index — a panic (`none`). -/
def parseBlock (block : String) : Option (Except GitError Match) :=
  match readHeaderLine block with
  | .error e => some (.error e)
  | .ok header =>
    match goSplitChar ':' header with
    | i0 :: i1 :: _ => some (.ok ⟨i0, goTrimCutsetSpace i1, block⟩)
    | _ => none

/-- The parsing loop of `getRangeOfMatches` over the selected blocks: the
first header read error aborts with that error (discarding earlier
matches, as the Go `return nil, err` does); a panic propagates. -/
def parseBlocks : List String → Option (Except GitError (List Match))
  | [] => some (.ok [])
  | b :: bs =>
    match parseBlock b with
    | none => none
    | some (.error e) => some (.error e)
    | some (.ok m) =>
      match parseBlocks bs with
      | none => none
      | some (.error e) => some (.error e)
      | some (.ok ms) => some (.ok (m :: ms))

/-- `getRangeOfMatches` as a function of the raw stdout of the fetch
invocation and its error.  Empty stdout returns `(nil, nil)` before the
error is consulted.  Otherwise the block list is paginated (a slice panic
is `none`), each selected block is parsed, and on success the matches are
returned together with the invocation error (which the loop's `:=` only
shadows, so it reaches the final `return`). -/
def getRangeOfMatches (stdout : String) (runErr : Option GitError)
    (opts : RepoSearchOptions) : Option (List Match × Option GitError) :=
  if stdout.length ≤ 0 then some ([], none)
  else
    match selectedBlocks stdout opts with
    | none => none
    | some sel =>
      match parseBlocks sel with
      | none => none
      | some (.error e) => some ([], some e)
      | some (.ok ms) => some (ms, runErr)

/-- `ShearchMatchesThisRepo`: the count phase (on its own raw output and
error) followed by the fetch phase; the first phase error aborts. -/
def shearchMatchesThisRepo (stdout1 : String) (err1 : Option GitError)
    (stdout2 : String) (err2 : Option GitError) (opts : RepoSearchOptions) :
    Option (Except GitError MatchesResults) :=
  match (getNumberOfCodeMatches stdout1 err1).2 with
  | some e => some (.error e)
  | none =>
    match getRangeOfMatches stdout2 err2 opts with
    | none => none
    | some (_, some e) => some (.error e)
    | some (ms, none) => some (.ok ⟨(getNumberOfCodeMatches stdout1 err1).1, ms⟩)

/-! ## Commit model and parent navigation (src/commit.go) -/

/-- `Commit` from src/commit.go: the fields the verified operations read
(`Author`/`Committer` signatures and the embedded tree are external
collaborators and are not consulted by any modelled operation).  `parents`
holds the parent object IDs in order. -/
structure Commit where
  ID : String
  CommitMessage : String
  parents : List String
deriving DecidableEq, Repr

/-- The repository's commit store, keyed by object ID. -/
structure Repository where
  commits : List (String × Commit)
deriving DecidableEq, Repr

/-- Modelled from the spec: `Repository.getCommit` is defined outside src/
(in the repository source file); per the spec it resolves a commit ID to a
full Commit via the store, failing with NotFound when the ID does not
resolve. -/
def Repository.getCommit (repo : Repository) (id : String) :
    Except GitError Commit :=
  match repo.commits.find? (fun p => p.1 = id) with
  | some p => .ok p.2
  | none => .error (.notExist id "")

/-- The store is content-addressed: every stored commit is keyed by its own
ID. -/
def Repository.wf (repo : Repository) : Prop :=
  ∀ p ∈ repo.commits, p.2.ID = p.1

/-- `Commit.ParentID`: returns `ErrNotExist` when `n >= len(parents)`; the
Go index expression `c.parents[n]` panics for a negative `n` (modelled as
`none`). -/
def Commit.ParentID (c : Commit) (n : Int) : Option (Except GitError String) :=
  if (c.parents.length : Int) ≤ n then some (.error (.notExist "" ""))
  else if n < 0 then none
  else
    match c.parents.get? n.toNat with
    | some id => some (.ok id)
    | none => none

/-- `Commit.Parent`: resolve the n-th parent ID and then look the parent up
in the repository (`c.repo` is modelled as an explicit argument). -/
def Commit.Parent (repo : Repository) (c : Commit) (n : Int) :
    Option (Except GitError Commit) :=
  match c.ParentID n with
  | none => none
  | some (.error e) => some (.error e)
  | some (.ok id) =>
    match repo.getCommit id with
    | .error e => some (.error e)
    | .ok parent => some (.ok parent)

/-- `Commit.ParentCount`: the number of parents (a Go `int`). -/
def Commit.ParentCount (c : Commit) : Int := c.parents.length

/-! ## File status classification (src/commit.go) -/

/-- `CommitFileStatus` from src/commit.go. -/
structure CommitFileStatus where
  Added : List String
  Removed : List String
  Modified : List String
deriving DecidableEq, Repr

/-- `NewCommitFileStatus`. -/
def NewCommitFileStatus : CommitFileStatus := ⟨[], [], []⟩

/-- One iteration of the scanning goroutine in `GetCommitFileStatus`: split
the line into whitespace-separated fields, skip it when there are fewer
than two fields, otherwise dispatch on the first character of the first
field (`strings.Fields` never yields an empty field, so the empty-string
arm is unreachable). -/
def classifyStatusLine (st : CommitFileStatus) (line : String) :
    CommitFileStatus :=
  match goFields line with
  | f0 :: f1 :: _ =>
    match f0.data with
    | 'A' :: _ => { st with Added := st.Added ++ [f1] }
    | 'D' :: _ => { st with Removed := st.Removed ++ [f1] }
    | 'M' :: _ => { st with Modified := st.Modified ++ [f1] }
    | _ => st
  | _ => st

/-- `GetCommitFileStatus` as a function of the text the `log --name-status`
invocation writes into the pipe and of the invocation's error: on error the
partially scanned result is discarded and the error surfaced (with the
captured stderr attached by `concatenateError`); otherwise the scanned
lines are classified in order. -/
def GetCommitFileStatus (stdout : String) (runErr : Option GitError) :
    Except GitError CommitFileStatus :=
  match runErr with
  | some e => .error e
  | none => .ok ((goScanLines stdout).foldl classifyStatusLine NewCommitFileStatus)

/-! ## Submodule registry (src/commit.go) -/

/-- `SubModule`. -/
structure SubModule where
  path : String
  url : String
deriving DecidableEq, Repr

/-- `objectCache.Set`: Go map insertion, overwriting an existing key. -/
def objectCacheSet (cache : List (String × SubModule)) (k : String)
    (v : SubModule) : List (String × SubModule) :=
  if cache.any (fun p => p.1 = k) then
    cache.map (fun p => if p.1 = k then (k, v) else p)
  else cache ++ [(k, v)]

/-- `objectCache.Get`: Go map lookup with its presence flag folded into an
`Option`. -/
def objectCacheGet (cache : List (String × SubModule)) (k : String) :
    Option SubModule :=
  match cache.find? (fun p => p.1 = k) with
  | some p => some p.2
  | none => none

/-- The scanner loop of `GetSubModules`: a line starting with `[submodule`
enters in-module state; in that state a line is split on every `=`, the
trimmed first field selects the key: `path` records the trimmed second
field as the pending path, `url` stores `SubModule{path, url}` under the
pending path and leaves in-module state.  A `path`/`url` line with no `=`
makes `fields[1]` an out-of-range index — a panic (`none`). -/
def parseSubmodulesLoop : List String → Bool → String →
    List (String × SubModule) → Option (List (String × SubModule))
  | [], _, _, cache => some cache
  | line :: rest, ismodule, path, cache =>
    if listHasPrefixOf line.data "[submodule".data then
      parseSubmodulesLoop rest true path cache
    else if ismodule then
      match goSplitChar '=' line with
      | [] => none
      | f0 :: restFields =>
        if goTrimSpace f0 = "path" then
          match restFields with
          | f1 :: _ => parseSubmodulesLoop rest ismodule (goTrimSpace f1) cache
          | [] => none
        else if goTrimSpace f0 = "url" then
          match restFields with
          | f1 :: _ =>
            parseSubmodulesLoop rest false path
              (objectCacheSet cache path ⟨path, goTrimSpace f1⟩)
          | [] => none
        else parseSubmodulesLoop rest ismodule path cache
    else parseSubmodulesLoop rest ismodule path cache

/-- `GetSubModules` as a function of the `.gitmodules` blob content.
Modelled from the spec for the part outside src/: the blob is obtained via
`GetTreeEntryByPath(".gitmodules")`, which fails with NotFound when no such
blob exists at the commit (`blob = none` here).  When the blob exists its
lines are fed to the section state machine starting outside any section
with an empty pending path. -/
def GetSubModules (blob : Option String) :
    Option (Except GitError (List (String × SubModule))) :=
  match blob with
  | none => some (.error (.notExist ".gitmodules" ""))
  | some content =>
    match parseSubmodulesLoop (goScanLines content) false "" [] with
    | none => none
    | some cache => some (.ok cache)

/-- `GetSubModule`: retrieve the mapping and look one path up; an absent
entry yields `(nil, nil)`, i.e. `some (.ok none)`. -/
def GetSubModule (blob : Option String) (entryname : String) :
    Option (Except GitError (Option SubModule)) :=
  match GetSubModules blob with
  | none => none
  | some (.error e) => some (.error e)
  | some (.ok cache) =>
    match objectCacheGet cache entryname with
    | some m => some (.ok (some m))
    | none => some (.ok none)

/-! ## Collaborator statistics (src/commit.go) -/

/-- `CommitsPerUser`. -/
structure CommitsPerUser where
  NumCommits : Int
  Date : String
  User : String
deriving DecidableEq, Repr

/-- `CommitsInfo`. -/
structure CommitsInfo where
  Info : List CommitsPerUser
  Total : Int
deriving DecidableEq, Repr

/-- The row-building loop of `commitsCountPerCollab`: each line is split at
its first `:`; the trimmed count field is parsed by `strconv.ParseInt`
whose error is discarded, so the parsed value is used as returned (0 on a
malformed field, the clamped extremum on an out-of-range field).  A line
with no `:` makes `info[1]` an out-of-range index — a panic (`none`).
Returns the rows together with the accumulated total. -/
def collabRows (label : String) :
    List String → Option (List CommitsPerUser × Int)
  | [] => some ([], 0)
  | line :: rest =>
    match goSplitN2Colon line with
    | i0 :: i1 :: _ =>
      let numcommits := (goParseInt64 (goTrimSpace i0)).1
      match collabRows label rest with
      | none => none
      | some (rows, total) =>
        some (⟨numcommits, i1, label⟩ :: rows, numcommits + total)
    | _ => none

/-- `commitsCountPerCollab` as a function of the raw stdout of the piped
log invocation and of its error (a non-nil error aborts).  The empty
`user` argument is relabelled `"all"`; the trailing split artifact line is
dropped; with no remaining lines a single placeholder row with the
sentinel date is produced. -/
def commitsCountPerCollab (stdout : String) (runErr : Option GitError)
    (user : String) : Option (Except GitError CommitsInfo) :=
  match runErr with
  | some e => some (.error e)
  | none =>
    let label := if user = "" then "all" else user
    let lines := (goSplitChar '\n' stdout).dropLast
    if 0 < lines.length then
      match collabRows label lines with
      | none => none
      | some (rows, total) => some (.ok ⟨rows, total⟩)
    else
      some (.ok ⟨[⟨0, "00-000-0000", label⟩], 0⟩)

/-- `StatsUser`. -/
structure StatsUser where
  Insertions : Int
  Deletions : Int
  Author : String
  Files : Nat
deriving DecidableEq, Repr

/-- One iteration of the line loop in `numStatCommitsPerUser`, acting on
the accumulator `(insertions, deletions, err)`: the digit runs of the line
are extracted; exactly two runs are parsed as `(ins, del)` with each value
reset to 0 on its own parse error, and the shared `err` variable is left
holding the outcome of the last `ParseInt` call; any other number of runs
adds zero to both totals and leaves `err` untouched. -/
def numStatLineStep (acc : Int × Int × Option GitError) (line : String) :
    Int × Int × Option GitError :=
  match digitRuns line.data with
  | [a, b] =>
    let pa := goParseInt64 (goTrimSpace a)
    let pb := goParseInt64 (goTrimSpace b)
    ((acc.1 + if pa.2 then pa.1 else 0),
     (acc.2.1 + if pb.2 then pb.1 else 0),
     if pb.2 then none else some (.parseIntFail b))
  | _ => acc

/-- `numStatCommitsPerUser` as a function of the raw stdout of the
`log --numstat` invocation and of its error (a non-nil error aborts).  The
trailing split artifact line is dropped; `Files` is the number of remaining
lines; the returned error is whatever the shared `err` variable holds after
the loop (the outcome of the last `ParseInt` performed, `nil` when no line
had exactly two digit runs). -/
def numStatCommitsPerUser (user : String) (stdout : String)
    (runErr : Option GitError) : Option StatsUser × Option GitError :=
  match runErr with
  | some e => (none, some e)
  | none =>
    let lines := (goSplitChar '\n' stdout).dropLast
    let acc := lines.foldl numStatLineStep
      ((0 : Int), (0 : Int), (none : Option GitError))
    (some ⟨acc.1, acc.2.1, user, lines.length⟩, acc.2.2)

/-! ## Spec-side characterizations (written from the spec's words, for the
refinement-style claims) -/

/-- Follows the spec's words for the insertions/deletions aggregation:
"exactly two numbers on a line are interpreted as (insertions, deletions)
and added to running totals, any other count of numbers on a line
contributes zero to both", with a malformed numeric field treated as
zero. -/
def specNumStatPair (line : String) : Int × Int :=
  match digitRuns line.data with
  | [a, b] =>
    ((if (goParseInt64 (goTrimSpace a)).2 then (goParseInt64 (goTrimSpace a)).1 else 0),
     (if (goParseInt64 (goTrimSpace b)).2 then (goParseInt64 (goTrimSpace b)).1 else 0))
  | _ => (0, 0)

/-- Follows the spec's words for the file status classifier: "each line is
split into whitespace-separated fields; lines with fewer than two fields
are skipped", and "the status code is read as the line's first character",
here compared against a given status letter; the classified path is the
second field. -/
def specStatusPath (letter : Char) (line : String) : Option String :=
  match goFields line with
  | f0 :: f1 :: _ => if f0.data.head? = some letter then some f1 else none
  | _ => none

/-- The spec-side file status result: the `A`/`D`/`M` lines in input order,
each contributing its second field. -/
def specFileStatus (lines : List String) : CommitFileStatus :=
  ⟨lines.filterMap (specStatusPath 'A'),
   lines.filterMap (specStatusPath 'D'),
   lines.filterMap (specStatusPath 'M')⟩

/-- Follows the spec's words for one histogram row: "each line is split
into count and date; the count is parsed as an integer" with the parse
error discarded (so the value is whatever `ParseInt` returned).  A line
with no `:` has no row (the code panics there instead). -/
def specCollabRow (label : String) (line : String) : Option CommitsPerUser :=
  match goSplitN2Colon line with
  | i0 :: i1 :: _ => some ⟨(goParseInt64 (goTrimSpace i0)).1, i1, label⟩
  | _ => none

/-! ## Helper lemmas -/

/-- A non-empty string has positive length (used to discharge the
`len(stdout) <= 0` guards). -/
theorem not_length_le_zero_of_ne_empty (s : String) (h : s ≠ "") :
    ¬ (s.length ≤ 0) := by
  intro hle
  apply h
  have hdata : s.data.length = 0 := Nat.le_zero.mp hle
  cases s with
  | mk data =>
    have : data = [] := List.length_eq_zero.mp hdata
    subst this
    rfl

/-- A successful parse of a block list produces one match per block. -/
theorem parseBlocks_ok_length :
    ∀ (bs : List String) (ms : List Match),
      parseBlocks bs = some (.ok ms) → ms.length = bs.length := by
  intro bs
  induction bs with
  | nil =>
    intro ms h
    simp only [parseBlocks, Option.some.injEq, Except.ok.injEq] at h
    subst h
    rfl
  | cons b bs ih =>
    intro ms h
    simp only [parseBlocks] at h
    cases hb : parseBlock b with
    | none => rw [hb] at h; cases h
    | some r =>
      rw [hb] at h
      cases r with
      | error e => simp at h
      | ok m =>
        cases hr : parseBlocks bs with
        | none => rw [hr] at h; cases h
        | some r2 =>
          rw [hr] at h
          cases r2 with
          | error e => simp at h
          | ok ms2 =>
            simp only [Option.some.injEq, Except.ok.injEq] at h
            subst h
            simp [ih ms2 hr]

/-- A defined Go slice is no longer than the sliced list. -/
theorem goSlice_length_le {α : Type} (xs : List α) (lo hi : Int)
    (ys : List α) (h : goSlice xs lo hi = some ys) : ys.length ≤ xs.length := by
  unfold goSlice at h
  split at h
  · injection h with h
    subst h
    simp only [List.length_take, List.length_drop]
    omega
  · cases h

/-- The selected page of blocks is no longer than the whole block list. -/
theorem selectedBlocks_length_le (stdout : String) (opts : RepoSearchOptions)
    (sel : List String) (h : selectedBlocks stdout opts = some sel) :
    sel.length ≤ (goSplitBlankLine stdout).length := by
  unfold selectedBlocks at h
  exact goSlice_length_le _ _ _ _ h

/-- The count phase never reports an error when the invocation error is
nil. -/
theorem getNumberOfCodeMatches_none_err (stdout : String) :
    (getNumberOfCodeMatches stdout none).2 = none := by
  unfold getNumberOfCodeMatches
  split <;> rfl

/-! ## Claim theorems -/

/-- C9: when the external process fails but produces empty stdout, both
search phases test the raw stdout for emptiness before inspecting the
invocation error, so `GetNumberOfCodeMatches` returns `(0, nil)` and
`GetRangeOfMatches` returns `(nil, nil)`: the non-nil process error is
discarded. -/
theorem claim9_error_discarded (e : GitError) (opts : RepoSearchOptions) :
    getNumberOfCodeMatches "" (some e) = (0, none) ∧
    getRangeOfMatches "" (some e) opts = some ([], none) :=
  ⟨rfl, rfl⟩

/-- C5: for empty raw output both phases return their no-results value
with no error, whatever the invocation error was; and for non-empty
count-phase output the count equals the number of newline-split output
lines minus one. -/
theorem claim5_zero_matches :
    (∀ (runErr : Option GitError) (opts : RepoSearchOptions),
       getNumberOfCodeMatches "" runErr = (0, none) ∧
       getRangeOfMatches "" runErr opts = some ([], none))
    ∧ (∀ (stdout : String) (runErr : Option GitError), stdout ≠ "" →
        (getNumberOfCodeMatches stdout runErr).1 =
          ((goSplitChar '\n' stdout).length : Int) - 1) := by
  constructor
  · intro runErr opts
    exact ⟨rfl, rfl⟩
  · intro stdout runErr h
    rw [getNumberOfCodeMatches, if_neg (not_length_le_zero_of_ne_empty stdout h)]

/-- C5 witness: the count for the concrete two-line-plus-trailing-newline
output `"a\nb\n"` is its line count minus one. -/
theorem claim5_zero_matches_witness :
    (getNumberOfCodeMatches "a\nb\n" none).1 =
      ((goSplitChar '\n' "a\nb\n").length : Int) - 1 :=
  claim5_zero_matches.2 "a\nb\n" none (by decide)

/-- C10: `getRangeOfMatches` reads `info[1]` of a selected block's header
without checking how many `:`-separated components exist.  On the fetch
output `"abc\ndef\n\nx:y\nz"` (first block's newline-terminated header
`abc` has no colon) the access is out of bounds — a runtime panic
(`none`), not a returned error; the same output with a colon in the header
(`"a:bc\ndef\n\nx:y\nz"`) parses fine, exhibiting the unstated
precondition. -/
theorem claim10_header_colon :
    getRangeOfMatches "abc\ndef\n\nx:y\nz" none ⟨"k", 0, "", 1, 1⟩ = none ∧
    getRangeOfMatches "a:bc\ndef\n\nx:y\nz" none ⟨"k", 0, "", 1, 1⟩ =
      some ([⟨"a", "bc\n", "a:bc\ndef"⟩], none) :=
  ⟨rfl, rfl⟩

/-- C3 counterexample: a `.gitmodules` blob that exists but contains no
submodule section does NOT fail with NotFound — `GetSubModules` returns an
empty mapping with no error, and the lookup returns `(nil, nil)`.  This
refutes the claim's "given a blob that exists but contains no submodule
section, the operation fails with NotFound". -/
theorem claim3_counterexample :
    GetSubModules (some "just some text\n") = some (.ok []) ∧
    GetSubModule (some "just some text\n") "libs/x" = some (.ok none) :=
  ⟨rfl, rfl⟩

/-- C3 (amended): parsing the example blob yields the expected submodule;
NotFound arises only when no `.gitmodules` blob exists at the commit (a
blob without submodule sections yields an empty mapping and no error); and
a lookup of a path with no entry in a successfully parsed mapping returns
`(nil, nil)`. -/
theorem claim3_submodules :
    GetSubModule
        (some "[submodule \"x\"]\npath = libs/x\nurl = https://example.com/x.git\n")
        "libs/x" =
      some (.ok (some ⟨"libs/x", "https://example.com/x.git"⟩)) ∧
    GetSubModules none = some (.error (.notExist ".gitmodules" "")) ∧
    GetSubModule
        (some "[submodule \"x\"]\npath = libs/x\nurl = https://example.com/x.git\n")
        "other/path" =
      some (.ok none) :=
  ⟨rfl, rfl, rfl⟩

/-- One classification step appends exactly the spec-side contribution of
the line to each of the three categories. -/
theorem classifyStatusLine_spec (st : CommitFileStatus) (line : String) :
    classifyStatusLine st line =
      ⟨st.Added ++ (specStatusPath 'A' line).toList,
       st.Removed ++ (specStatusPath 'D' line).toList,
       st.Modified ++ (specStatusPath 'M' line).toList⟩ := by
  unfold classifyStatusLine specStatusPath
  cases hf : goFields line with
  | nil => simp
  | cons f0 rest =>
    cases rest with
    | nil => simp
    | cons f1 rest2 =>
      cases hd : f0.data with
      | nil => simp [hd]
      | cons c tail =>
        simp only [hd, List.head?_cons]
        split
        · rename_i t2 heq
          injection heq with h1 _
          subst h1
          simp
        · rename_i t2 heq
          injection heq with h1 _
          subst h1
          simp
        · rename_i t2 heq
          injection heq with h1 _
          subst h1
          simp
        · rename_i hA hD hM
          have hA2 : ¬ (c = 'A') := fun hc => hA tail (by rw [hc])
          have hD2 : ¬ (c = 'D') := fun hc => hD tail (by rw [hc])
          have hM2 : ¬ (c = 'M') := fun hc => hM tail (by rw [hc])
          rw [if_neg (by simp [hA2]), if_neg (by simp [hD2]), if_neg (by simp [hM2])]
          simp

/-- The classification fold computes the spec-side file status, starting
from any partial accumulator. -/
theorem foldl_classify_spec (lines : List String) (st : CommitFileStatus) :
    lines.foldl classifyStatusLine st =
      ⟨st.Added ++ lines.filterMap (specStatusPath 'A'),
       st.Removed ++ lines.filterMap (specStatusPath 'D'),
       st.Modified ++ lines.filterMap (specStatusPath 'M')⟩ := by
  induction lines generalizing st with
  | nil => simp
  | cons l ls ih =>
    simp only [List.foldl_cons, List.filterMap_cons]
    rw [classifyStatusLine_spec, ih]
    cases hA : specStatusPath 'A' l <;>
      cases hD : specStatusPath 'D' l <;>
        cases hM : specStatusPath 'M' l <;>
          simp [List.append_assoc]

/-- C6: `GetCommitFileStatus` splits each scanned line into
whitespace-separated fields, skips lines with fewer than two fields, and
classifies by the first character of the first field (`A`/`D`/`M`, others
ignored): the result equals the spec-side filter of the lines, and on the
synthetic report with a malformed line `X` it yields exactly the three
expected paths with no error. -/
theorem claim6_file_status :
    (∀ stdout : String,
       GetCommitFileStatus stdout none = .ok (specFileStatus (goScanLines stdout)))
    ∧ GetCommitFileStatus "A\tfoo.txt\nD\tbar.txt\nM\tbaz.txt\nX\n" none =
        .ok ⟨["foo.txt"], ["bar.txt"], ["baz.txt"]⟩ := by
  constructor
  · intro stdout
    show Except.ok ((goScanLines stdout).foldl classifyStatusLine NewCommitFileStatus) = _
    rw [foldl_classify_spec]
    rfl
  · rfl

/-- One numstat step adds exactly the spec-side insertions contribution. -/
theorem numStatLineStep_fst (acc : Int × Int × Option GitError) (line : String) :
    (numStatLineStep acc line).1 = acc.1 + (specNumStatPair line).1 := by
  unfold numStatLineStep specNumStatPair
  cases hr : digitRuns line.data with
  | nil => simp
  | cons a rest =>
    cases rest with
    | nil => simp
    | cons b rest2 =>
      cases rest2 with
      | nil => simp
      | cons x rest3 => simp

/-- One numstat step adds exactly the spec-side deletions contribution. -/
theorem numStatLineStep_snd (acc : Int × Int × Option GitError) (line : String) :
    (numStatLineStep acc line).2.1 = acc.2.1 + (specNumStatPair line).2 := by
  unfold numStatLineStep specNumStatPair
  cases hr : digitRuns line.data with
  | nil => simp
  | cons a rest =>
    cases rest with
    | nil => simp
    | cons b rest2 =>
      cases rest2 with
      | nil => simp
      | cons x rest3 => simp

/-- The numstat fold accumulates the per-line spec-side contributions. -/
theorem foldl_numStat_sums (lines : List String) :
    ∀ acc : Int × Int × Option GitError,
      (lines.foldl numStatLineStep acc).1 =
        acc.1 + (lines.map (fun l => (specNumStatPair l).1)).sum ∧
      (lines.foldl numStatLineStep acc).2.1 =
        acc.2.1 + (lines.map (fun l => (specNumStatPair l).2)).sum := by
  induction lines with
  | nil => intro acc; simp
  | cons l ls ih =>
    intro acc
    simp only [List.foldl_cons, List.map_cons, List.sum_cons]
    obtain ⟨ih1, ih2⟩ := ih (numStatLineStep acc l)
    rw [ih1, ih2, numStatLineStep_fst, numStatLineStep_snd]
    constructor <;> ring

/-- C2 (amended): every output line contributes exactly its spec-side pair
(two embedded numeric runs = (insertions, deletions), any other count of
runs = (0, 0)) to the running totals; on the claimed example lines the
digit inside the file names (`file1`, `file2`) makes three numeric runs per
line, so the result is Insertions=0, Deletions=0, Files=2, while digit-free
file names yield the intended Insertions=13, Deletions=3, Files=2. -/
theorem claim2_numstat :
    (∀ (user stdout : String),
       (numStatCommitsPerUser user stdout none).1 =
         some ⟨(((goSplitChar '\n' stdout).dropLast.map
                   (fun l => (specNumStatPair l).1)).sum),
               (((goSplitChar '\n' stdout).dropLast.map
                   (fun l => (specNumStatPair l).2)).sum),
               user, (goSplitChar '\n' stdout).dropLast.length⟩)
    ∧ numStatCommitsPerUser "u" "10\t2\tfileA\n3\t1\tfileB\n" none =
        (some ⟨13, 3, "u", 2⟩, none)
    ∧ numStatCommitsPerUser "u" "10\t2\tfile1\n3\t1\tfile2\n" none =
        (some ⟨0, 0, "u", 2⟩, none) := by
  refine ⟨?_, rfl, rfl⟩
  intro user stdout
  show some (StatsUser.mk _ _ _ _) = _
  obtain ⟨h1, h2⟩ :=
    foldl_numStat_sums ((goSplitChar '\n' stdout).dropLast)
      ((0 : Int), (0 : Int), (none : Option GitError))
  rw [h1, h2]
  simp

/-- C2 counterexample: on the numstat lines `"10\t2\tfile1"` and
`"3\t1\tfile2"` the regular expression `[0-9]+` finds three numeric runs
per line (the third inside the file name), so each line contributes zero
and the result is Insertions=0, Deletions=0 — not the claimed
Insertions=13, Deletions=3. -/
theorem claim2_counterexample :
    numStatCommitsPerUser "u" "10\t2\tfile1\n3\t1\tfile2\n" none =
      (some ⟨0, 0, "u", 2⟩, none) ∧
    (some (StatsUser.mk 0 0 "u" 2) ≠ some (StatsUser.mk 13 3 "u" 2)) :=
  ⟨rfl, by decide⟩

/-- The row-building loop returns a total equal to the sum of the emitted
rows' counts, and labels every row with the given user label. -/
theorem collabRows_props (label : String) :
    ∀ (lines : List String) (rows : List CommitsPerUser) (total : Int),
      collabRows label lines = some (rows, total) →
        total = (rows.map CommitsPerUser.NumCommits).sum ∧
        ∀ r ∈ rows, r.User = label := by
  intro lines
  induction lines with
  | nil =>
    intro rows total h
    simp only [collabRows, Option.some.injEq, Prod.mk.injEq] at h
    obtain ⟨rfl, rfl⟩ := h
    simp
  | cons line rest ih =>
    intro rows total h
    simp only [collabRows] at h
    cases hs : goSplitN2Colon line with
    | nil => rw [hs] at h; cases h
    | cons i0 restI =>
      cases restI with
      | nil => rw [hs] at h; cases h
      | cons i1 restI2 =>
        rw [hs] at h
        cases hr : collabRows label rest with
        | none => rw [hr] at h; cases h
        | some p =>
          obtain ⟨rows2, total2⟩ := p
          rw [hr] at h
          simp only [Option.some.injEq, Prod.mk.injEq] at h
          obtain ⟨rfl, rfl⟩ := h
          obtain ⟨ih1, ih2⟩ := ih rows2 total2 hr
          constructor
          · simp [ih1]
          · intro r hrr
            rcases List.mem_cons.mp hrr with hr1 | hr2
            · subst hr1; rfl
            · exact ih2 r hr2

/-- A count field with a non-digit character anywhere after its first
character is syntactically malformed for `strconv.ParseInt` (the optional
sign can only excuse the first character), so the parse returns value 0
with a non-nil error. -/
theorem goParseInt64_nondigit (s : String) (c : Char)
    (hc : c ∈ s.data.drop 1) (hnd : ¬ c.isDigit) :
    goParseInt64 s = (0, false) := by
  unfold goParseInt64
  cases hd : s.data with
  | nil => rw [hd] at hc; simp at hc
  | cons a rest =>
    rw [hd] at hc
    simp only [List.drop_succ_cons, List.drop_zero] at hc
    have hall : ∀ l : List Char, c ∈ l → l.all Char.isDigit = false := by
      intro l hl
      rw [List.all_eq_false]
      exact ⟨c, hl, by simpa using hnd⟩
    split
    rename_i neg r heq
    have hcr : c ∈ r := by
      split at heq
      · rename_i rest2 hdisc
        injection hdisc with hd1 hd2
        subst hd2
        injection heq with h1 h2
        subst h2
        exact hc
      · rename_i rest2 hdisc
        injection hdisc with hd1 hd2
        subst hd2
        injection heq with h1 h2
        subst h2
        exact hc
      · injection heq with h1 h2
        subst h2
        exact List.mem_cons_of_mem a hc
    rw [if_pos (Or.inr (by simp [hall r hcr]))]

/-- A successful row-building loop produces exactly the spec-side row of
each line, in order. -/
theorem collabRows_rows_spec (label : String) :
    ∀ (lines : List String) (rows : List CommitsPerUser) (total : Int),
      collabRows label lines = some (rows, total) →
        rows.map some = lines.map (specCollabRow label) := by
  intro lines
  induction lines with
  | nil =>
    intro rows total h
    simp only [collabRows, Option.some.injEq, Prod.mk.injEq] at h
    obtain ⟨rfl, rfl⟩ := h
    simp
  | cons line rest ih =>
    intro rows total h
    simp only [collabRows] at h
    cases hs : goSplitN2Colon line with
    | nil => rw [hs] at h; cases h
    | cons i0 restI =>
      cases restI with
      | nil => rw [hs] at h; cases h
      | cons i1 restI2 =>
        rw [hs] at h
        cases hr : collabRows label rest with
        | none => rw [hr] at h; cases h
        | some p =>
          obtain ⟨rows2, total2⟩ := p
          rw [hr] at h
          simp only [Option.some.injEq, Prod.mk.injEq] at h
          obtain ⟨rfl, rfl⟩ := h
          simp only [List.map_cons, specCollabRow, hs]
          rw [ih rows2 total2 hr]

/-- C7 (amended): for any histogram result, `Total` equals the sum of the
rows' `NumCommits`, every row carries the user label (`"all"` for the
empty user), each row is the spec-side row of its line (the count field
parsed with the `ParseInt` error discarded), and an empty line list yields
exactly the placeholder row with the sentinel date and zero total.  A
syntactically malformed count field parses to value 0 with its error
discarded rather than propagated — as the concrete `"abc:x"` line shows,
contributing 0 to its row and to `Total` with an error-free result — while
an out-of-range count field contributes the clamped max-magnitude int64
(see the C7 counterexample).  The concrete two-line example totals 5 and
the empty output yields the placeholder. -/
theorem claim7_histogram :
    (∀ (stdout user : String) (ci : CommitsInfo),
       commitsCountPerCollab stdout none user = some (.ok ci) →
         ci.Total = (ci.Info.map CommitsPerUser.NumCommits).sum ∧
         (∀ r ∈ ci.Info, r.User = (if user = "" then "all" else user)) ∧
         ((goSplitChar '\n' stdout).dropLast ≠ [] →
           ci.Info.map some =
             (goSplitChar '\n' stdout).dropLast.map
               (specCollabRow (if user = "" then "all" else user))) ∧
         ((goSplitChar '\n' stdout).dropLast = [] →
           ci = ⟨[⟨0, "00-000-0000", if user = "" then "all" else user⟩], 0⟩))
    ∧ (∀ (s : String) (c : Char), c ∈ s.data.drop 1 → ¬ c.isDigit →
         goParseInt64 s = (0, false))
    ∧ commitsCountPerCollab "abc:x\n2:y\n" none "u" =
        some (.ok ⟨[⟨0, "x", "u"⟩, ⟨2, "y", "u"⟩], 2⟩)
    ∧ commitsCountPerCollab "3:01-Jan-2020\n2:02-Jan-2020\n" none "u" =
        some (.ok ⟨[⟨3, "01-Jan-2020", "u"⟩, ⟨2, "02-Jan-2020", "u"⟩], 5⟩)
    ∧ commitsCountPerCollab "" none "" =
        some (.ok ⟨[⟨0, "00-000-0000", "all"⟩], 0⟩) := by
  refine ⟨?_, goParseInt64_nondigit, rfl, rfl, rfl⟩
  intro stdout user ci h
  simp only [commitsCountPerCollab] at h
  by_cases hl : 0 < (goSplitChar '\n' stdout).dropLast.length
  · rw [if_pos hl] at h
    cases hr : collabRows (if user = "" then "all" else user)
        ((goSplitChar '\n' stdout).dropLast) with
    | none => rw [hr] at h; cases h
    | some p =>
      obtain ⟨rows, total⟩ := p
      rw [hr] at h
      simp only [Option.some.injEq, Except.ok.injEq] at h
      subst h
      obtain ⟨h1, h2⟩ := collabRows_props _ _ _ _ hr
      refine ⟨h1, h2, fun _ => collabRows_rows_spec _ _ _ _ hr, ?_⟩
      intro hnil
      rw [hnil] at hl
      simp at hl
  · rw [if_neg hl] at h
    simp only [Option.some.injEq, Except.ok.injEq] at h
    subst h
    refine ⟨by simp, ?_, ?_, fun _ => rfl⟩
    · intro r hrr
      simp only [List.mem_singleton] at hrr
      subst hrr
      rfl
    · intro hne
      exact absurd (List.length_eq_zero.mp (by omega)) hne

/-- C7 witness: the general histogram properties applied to the concrete
two-line output `"3:01-Jan-2020\n2:02-Jan-2020\n"` with user `"u"`, and
the malformed-count parse rule applied to the field `"abc"`. -/
theorem claim7_histogram_witness :
    ((CommitsInfo.mk [⟨3, "01-Jan-2020", "u"⟩, ⟨2, "02-Jan-2020", "u"⟩] 5).Total =
        ((CommitsInfo.mk [⟨3, "01-Jan-2020", "u"⟩, ⟨2, "02-Jan-2020", "u"⟩] 5).Info.map
          CommitsPerUser.NumCommits).sum ∧
      (∀ r ∈ (CommitsInfo.mk [⟨3, "01-Jan-2020", "u"⟩, ⟨2, "02-Jan-2020", "u"⟩] 5).Info,
         r.User = (if "u" = "" then "all" else "u")) ∧
      ((goSplitChar '\n' "3:01-Jan-2020\n2:02-Jan-2020\n").dropLast ≠ [] →
        (CommitsInfo.mk [⟨3, "01-Jan-2020", "u"⟩, ⟨2, "02-Jan-2020", "u"⟩] 5).Info.map some =
          (goSplitChar '\n' "3:01-Jan-2020\n2:02-Jan-2020\n").dropLast.map
            (specCollabRow (if "u" = "" then "all" else "u"))) ∧
      ((goSplitChar '\n' "3:01-Jan-2020\n2:02-Jan-2020\n").dropLast = [] →
        (CommitsInfo.mk [⟨3, "01-Jan-2020", "u"⟩, ⟨2, "02-Jan-2020", "u"⟩] 5) =
          ⟨[⟨0, "00-000-0000", if "u" = "" then "all" else "u"⟩], 0⟩)) ∧
    goParseInt64 "abc" = (0, false) :=
  ⟨claim7_histogram.1 "3:01-Jan-2020\n2:02-Jan-2020\n" "u"
      ⟨[⟨3, "01-Jan-2020", "u"⟩, ⟨2, "02-Jan-2020", "u"⟩], 5⟩ rfl,
    claim7_histogram.2.1 "abc" 'b' (by decide) (by decide)⟩

/-- C7 counterexample: the count field `"9999999999999999999999"` fails
integer parsing (out of range for int64), yet it contributes the clamped
value 9223372036854775807 — not 0 — to the row and the total, because the
code discards the `ParseInt` error without resetting the value. -/
theorem claim7_counterexample :
    commitsCountPerCollab "9999999999999999999999:x\n" none "u" =
      some (.ok ⟨[⟨9223372036854775807, "x", "u"⟩], 9223372036854775807⟩) ∧
    (9223372036854775807 : Int) ≠ 0 :=
  ⟨rfl, by decide⟩

/-- C8: for a well-formed store, a nonnegative index `n` with an `n`-th
parent ID present resolves via `Parent(n)` to the full stored commit, whose
`ID` equals `parents[n]` (the resolution goes through the repository
lookup); and for every `n ≥ ParentCount()` the call fails with NotFound. -/
theorem claim8_parent :
    (∀ (repo : Repository) (c : Commit) (n : Int) (pid : String),
       0 ≤ n → c.parents.get? n.toNat = some pid → repo.wf →
       ∀ p : Commit, repo.getCommit pid = .ok p →
         Commit.Parent repo c n = some (.ok p) ∧ p.ID = pid)
    ∧ (∀ (repo : Repository) (c : Commit) (n : Int),
         c.ParentCount ≤ n →
         Commit.Parent repo c n = some (.error (.notExist "" ""))) := by
  constructor
  · intro repo c n pid hn hget hwf p hok
    have hlt : n.toNat < c.parents.length := List.get?_eq_some.mp hget |>.1
    have hid : Commit.ParentID c n = some (.ok pid) := by
      unfold Commit.ParentID
      rw [if_neg (by omega), if_neg (by omega), hget]
    constructor
    · unfold Commit.Parent
      simp [hid, hok]
    · unfold Repository.getCommit at hok
      cases hf : repo.commits.find? (fun q => q.1 = pid) with
      | none => rw [hf] at hok; cases hok
      | some q =>
        rw [hf] at hok
        simp only [Except.ok.injEq] at hok
        subst hok
        have hqmem : q ∈ repo.commits := List.mem_of_find?_eq_some hf
        have hqkey : q.1 = pid := by
          have := List.find?_some hf
          simpa using this
        rw [hwf q hqmem, hqkey]
  · intro repo c n hn
    have hn2 : ((c.parents.length : Int)) ≤ n := hn
    unfold Commit.Parent Commit.ParentID
    rw [if_pos hn2]

/-- C8 witness: a one-commit store resolving the single parent of a commit,
and the out-of-range request `Parent(ParentCount)` failing with NotFound. -/
theorem claim8_parent_witness :
    (Commit.Parent ⟨[("p1", ⟨"p1", "m", []⟩)]⟩ ⟨"c", "m", ["p1"]⟩ 0 =
        some (.ok ⟨"p1", "m", []⟩) ∧
      (Commit.mk "p1" "m" []).ID = "p1") ∧
    Commit.Parent ⟨[("p1", ⟨"p1", "m", []⟩)]⟩ ⟨"c", "m", ["p1"]⟩ 1 =
      some (.error (.notExist "" "")) :=
  ⟨claim8_parent.1 ⟨[("p1", ⟨"p1", "m", []⟩)]⟩ ⟨"c", "m", ["p1"]⟩ 0 "p1"
      (by decide) rfl (by intro p hp; fin_cases hp; rfl) ⟨"p1", "m", []⟩ rfl,
    claim8_parent.2 ⟨[("p1", ⟨"p1", "m", []⟩)]⟩ ⟨"c", "m", ["p1"]⟩ 1 (by decide)⟩

/-- C1 counterexample: on the fetch output `"x:y\na\n\nb:c\nd"` (two
blocks) with page 4 and pageSize 1 the page lies beyond the available
blocks, and `getRangeOfMatches` does not return an empty slice with no
error: the slice expression `results[3:2]` is out of range, a runtime
panic (`none`). -/
theorem claim1_counterexample :
    getRangeOfMatches "x:y\na\n\nb:c\nd" none ⟨"k", 0, "", 4, 1⟩ = none :=
  rfl

/-- C1 (amended): for `page ≥ 1`, `pageSize > 0`, non-empty raw output and
`(page-1)*pageSize ≤ totalBlocks`, pagination selects the window
`[(page-1)*pageSize, min(page*pageSize, totalBlocks))` of the blank-line
block list before parsing: the selected window has length
`min(pageSize, totalBlocks - (page-1)*pageSize)` — never exceeding
`pageSize` — and when `(page-1)*pageSize` equals `totalBlocks` exactly the
function returns an empty slice with the invocation error (no error when
that is nil).  When `(page-1)*pageSize > totalBlocks` the slice panics
(see the C1 counterexample). -/
theorem claim1_pagination (stdout : String) (runErr : Option GitError)
    (opts : RepoSearchOptions) (h1 : 1 ≤ opts.page) (h2 : 1 ≤ opts.pageSize)
    (h3 : stdout ≠ "")
    (h4 : (opts.page - 1) * opts.pageSize ≤ ((goSplitBlankLine stdout).length : Int)) :
    ∃ sel, selectedBlocks stdout opts = some sel ∧
      (sel.length : Int) =
        min opts.pageSize
          (((goSplitBlankLine stdout).length : Int) - (opts.page - 1) * opts.pageSize) ∧
      (sel.length : Int) ≤ opts.pageSize ∧
      ((opts.page - 1) * opts.pageSize = ((goSplitBlankLine stdout).length : Int) →
        getRangeOfMatches stdout runErr opts = some ([], runErr)) := by
  obtain ⟨kw, oid, ob, p, s⟩ := opts
  simp only at h1 h2 h4 ⊢
  have hps : p * s = (p - 1) * s + s := by ring
  have hlo0 : 0 ≤ (p - 1) * s := mul_nonneg (by omega) (by omega)
  set L : Int := ((goSplitBlankLine stdout).length : Int) with hL
  set lo : Int := (p - 1) * s with hlo
  have hsel : selectedBlocks stdout ⟨kw, oid, ob, p, s⟩ =
      some (((goSplitBlankLine stdout).drop lo.toNat).take
        ((if p * s < L then p * s else L) - lo).toNat) := by
    unfold selectedBlocks goSlice
    dsimp only
    rw [if_pos ?cond]
    case cond =>
      refine ⟨hlo0, ?_, ?_⟩
      · split
        · omega
        · exact h4
      · split
        · omega
        · omega
  refine ⟨_, hsel, ?_, ?_, ?_⟩
  · rw [List.length_take, List.length_drop]
    split
    · omega
    · omega
  · rw [List.length_take, List.length_drop]
    split
    · omega
    · omega
  · intro heq
    have hnotlt : ¬ (p * s < L) := by omega
    unfold getRangeOfMatches
    rw [if_neg (not_length_le_zero_of_ne_empty stdout h3), hsel]
    rw [if_neg hnotlt]
    have : (L - lo).toNat = 0 := by omega
    rw [this]
    rfl

/-- C1 witness: one block, page 1, pageSize 2 — the window selection
succeeds with window length `min(2, 1) = 1`. -/
theorem claim1_pagination_witness :
    ∃ sel, selectedBlocks "x:y\na" ⟨"k", 0, "", 1, 2⟩ = some sel ∧
      (sel.length : Int) =
        min (RepoSearchOptions.mk "k" 0 "" 1 2).pageSize
          (((goSplitBlankLine "x:y\na").length : Int) - (1 - 1) * 2) ∧
      (sel.length : Int) ≤ (RepoSearchOptions.mk "k" 0 "" 1 2).pageSize ∧
      ((1 - 1) * 2 = ((goSplitBlankLine "x:y\na").length : Int) →
        getRangeOfMatches "x:y\na" none ⟨"k", 0, "", 1, 2⟩ = some ([], none)) :=
  claim1_pagination "x:y\na" none ⟨"k", 0, "", 1, 2⟩ (by decide) (by decide)
    (by decide) (by decide)

/-- C4 counterexample: the invariant `numberMatches ≥ len(results)` does
not hold for every pair of raw outputs: an empty count-phase output with a
one-match fetch-phase output yields `numberMatches = 0` but one result. -/
theorem claim4_counterexample :
    shearchMatchesThisRepo "" none "x:y\nz" none ⟨"k", 0, "", 1, 1⟩ =
      some (.ok ⟨0, [⟨"x", "y\n", "x:y\nz"⟩]⟩) ∧
    (MatchesResults.mk 0 [⟨"x", "y\n", "x:y\nz"⟩]).numberMatches <
      ((MatchesResults.mk 0 [⟨"x", "y\n", "x:y\nz"⟩]).results.length : Int) :=
  ⟨rfl, by decide⟩

/-- C4 (amended): whenever the count phase reports at least as many matches
as the fetch phase has blocks (in particular whenever both phases observe
the same repository state), the composed search result satisfies
`numberMatches ≥ len(results)`; for unrelated raw outputs the invariant can
fail (see the C4 counterexample). -/
theorem claim4_count_dominates (stdout1 stdout2 : String)
    (opts : RepoSearchOptions) (r : MatchesResults)
    (hcons : ((goSplitBlankLine stdout2).length : Int) ≤
      (getNumberOfCodeMatches stdout1 none).1)
    (h : shearchMatchesThisRepo stdout1 none stdout2 none opts = some (.ok r)) :
    (r.results.length : Int) ≤ r.numberMatches := by
  unfold shearchMatchesThisRepo at h
  rw [getNumberOfCodeMatches_none_err stdout1] at h
  cases hr : getRangeOfMatches stdout2 none opts with
  | none => rw [hr] at h; cases h
  | some pr =>
    obtain ⟨ms, e⟩ := pr
    rw [hr] at h
    cases e with
    | some e2 => simp at h
    | none =>
      simp only [Option.some.injEq, Except.ok.injEq] at h
      subst h
      simp only
      unfold getRangeOfMatches at hr
      by_cases hempty : stdout2.length ≤ 0
      · rw [if_pos hempty] at hr
        simp only [Option.some.injEq, Prod.mk.injEq] at hr
        obtain ⟨rfl, -⟩ := hr
        simp only [List.length_nil, Nat.cast_zero]
        omega
      · rw [if_neg hempty] at hr
        cases hsel : selectedBlocks stdout2 opts with
        | none => rw [hsel] at hr; cases hr
        | some sel =>
          rw [hsel] at hr
          dsimp only at hr
          cases hpb : parseBlocks sel with
          | none => rw [hpb] at hr; cases hr
          | some pe =>
            cases pe with
            | error e3 => rw [hpb] at hr; simp at hr
            | ok ms2 =>
              rw [hpb] at hr
              simp only [Option.some.injEq, Prod.mk.injEq] at hr
              obtain ⟨rfl, -⟩ := hr
              have hlen : ms2.length = sel.length := parseBlocks_ok_length sel ms2 hpb
              have hle : sel.length ≤ (goSplitBlankLine stdout2).length :=
                selectedBlocks_length_le stdout2 opts sel hsel
              omega

/-- C4 witness: count-phase output `"a\nb\n"` (count 2) and one-block
fetch-phase output `"x:y\nz"` give 2 ≥ 1. -/
theorem claim4_count_dominates_witness :
    ((MatchesResults.mk 2 [⟨"x", "y\n", "x:y\nz"⟩]).results.length : Int) ≤
      (MatchesResults.mk 2 [⟨"x", "y\n", "x:y\nz"⟩]).numberMatches :=
  claim4_count_dominates "a\nb\n" "x:y\nz" ⟨"k", 0, "", 1, 1⟩
    ⟨2, [⟨"x", "y\n", "x:y\nz"⟩]⟩ (by decide) rfl

end GitModule
